import Mathlib

/-!
Verification development for the logue-sdk custom oscillator / delay effect
sources (`delay.c`, `first_osc.cpp`, `first_osc.hpp`, `square.cpp`).

Floating-point sample values are embedded as exact rationals (`ℚ`); machine
integer indices as `ℕ` / `ℤ`.  Casts of nonnegative floats to `uint32_t`
(truncation toward zero) are embedded by `truncQ`.
-/

/-- Truncation toward zero of a rational, embedding the C cast of a float to
an unsigned integer (all uses in the sources keep the operand nonnegative,
where truncation toward zero agrees with the floor). -/
def truncQ (q : ℚ) : ℤ := if 0 ≤ q then ⌊q⌋ else -⌊-q⌋

/-- Modelled from the spec: host utility `clipminmaxf(min, x, max)` — clamps
`x` into `[min, max]` (the SDK utility headers are not under `src/`). -/
def clipminmaxf (lo x hi : ℚ) : ℚ := if x ≤ lo then lo else if hi ≤ x then hi else x

/-- Modelled from the spec: host utility `linintf(t, a, b)` — linear
interpolation `a + t·(b − a)` (the SDK utility headers are not under `src/`). -/
def linintf (t a b : ℚ) : ℚ := a + t * (b - a)

/-- Modelled from the spec: host conversion `q31_to_f32` — the host-native
Q31 signed fixed-point encoding (31 fractional bits) normalized to a float,
`v · 2⁻³¹` (the SDK headers are not under `src/`). -/
def q31_to_f32 (v : ℤ) : ℚ := v / 2 ^ 31

/-- Modelled from the spec: host conversion `param_val_to_f32` — normalizes a
10-bit host parameter encoding (0..1023) to a unit float, `v / 1023` (the SDK
headers are not under `src/`). -/
def param_val_to_f32 (v : ℕ) : ℚ := v / 1023

/-- Modelled from the spec: `osc_sawf` — saw generator `2·phase − 1`
(the SDK oscillator API is not under `src/`). -/
def osc_sawf (x : ℚ) : ℚ := 2 * x - 1

/-- Triangle generator `osc_trif` from `first_osc.hpp` lines 18–29. -/
def osc_trif (x : ℚ) : ℚ :=
  if x < 1/4 then x * 4
  else if x < 3/4 then (1/2 - x) * 4
  else (x - 1) * 4

/-- Phase advance from `first_osc.hpp` lines 141–142 (also `square.cpp`
lines 90–91): `phi += w; phi -= (uint32_t) phi;`. -/
def advance (phi w : ℚ) : ℚ := (phi + w) - truncQ (phi + w)

/-- Iterated phase advance (`advance` applied `n` times with a fixed
increment), for stating the repeated-advance invariant. -/
def advanceIter (w phi : ℚ) : ℕ → ℚ
  | 0 => phi
  | n + 1 => advance (advanceIter w phi n) w

/-! ## Delay effect (`delay.c`) -/

/-- State of the delay effect (`my_delay_t`, `delay.c` lines 13–23).  The
sample storage is embedded as a total function from sample index to value. -/
structure DelayState where
  buffer : ℕ → ℚ
  buffer_len : ℕ
  index : ℕ
  wet_mix : ℚ
  dry_mix : ℚ
  feedback : ℚ
  time_samples : ℕ

/-- `kDelayBufferSize = k_samplerate * 2` with `k_samplerate = 48000`
(`delay.c` line 11). -/
def kDelayBufferSize : ℕ := 48000 * 2

/-- `init` from `delay.c` lines 34–46 (zeroed buffer, defaults). -/
def delayInit : DelayState :=
  { buffer := fun _ => 0
    buffer_len := kDelayBufferSize
    index := 0
    wet_mix := 1/2
    dry_mix := 1/2
    feedback := 1/5
    time_samples := 48000 }

/-- One loop iteration of `process` (`delay.c` lines 52–66) on one stereo
frame `(l, r)`: only the left sample is read (`dry = *sample_p`), the output
`yn` is written to both channels, the buffer cell is overwritten after the
output is computed, and the write index advances modulo `time_samples`.
The right input sample `r` is never read, matching the source. -/
def processFrame (s : DelayState) (l r : ℚ) : DelayState × (ℚ × ℚ) :=
  let dry := l
  let wet := s.buffer s.index
  let yn := dry * s.dry_mix + wet * s.wet_mix
  (( { s with
       buffer := Function.update s.buffer s.index (s.feedback * (wet + dry))
       index := (s.index + 1) % s.time_samples } ), (yn, yn))

/-- `process` from `delay.c` lines 48–67 over a list of stereo frames. -/
def process (s : DelayState) : List (ℚ × ℚ) → DelayState × List (ℚ × ℚ)
  | [] => (s, [])
  | (l, r) :: rest =>
    let fr := processFrame s l r
    let tl := process fr.1 rest
    (tl.1, fr.2 :: tl.2)

/-- The `k_user_delfx_param_time` branch of `DELFX_PARAM` (`delay.c` lines
92–97), at the level of the computed new length in samples:
`delay_s.time_samples = newLength; delay_s.index %= time_samples;`
then `memset(buffer + time_samples, 0, buffer_len - time_samples)`.
The `memset` count is in BYTES over a `float` (4-byte) array, so exactly
`(buffer_len − newLength) / 4` whole samples starting at `newLength` are
zeroed; when the byte count is not a multiple of 4 the following sample is
partially overwritten — its (byte-level, unrepresentable here) resulting
value is taken as the parameter `junk`. -/
def setDelayTime (s : DelayState) (newLength : ℕ) (junk : ℚ) : DelayState :=
  let byteCount := s.buffer_len - newLength
  { s with
    time_samples := newLength
    index := s.index % newLength
    buffer := fun i =>
      if newLength ≤ i ∧ i + 1 ≤ newLength + byteCount / 4 then 0
      else if i = newLength + byteCount / 4 ∧ byteCount % 4 ≠ 0 then junk
      else s.buffer i }

/-- `k_user_delfx_param_time` (host header id). -/
def k_user_delfx_param_time : ℕ := 0

/-- `k_user_delfx_param_depth` (host header id). -/
def k_user_delfx_param_depth : ℕ := 1

/-- `k_user_delfx_param_shift_depth` (host header id). -/
def k_user_delfx_param_shift_depth : ℕ := 2

/-- The delay-time computation of `delay.c` line 94:
`k_samplerate * linintf(percent, 0.001f, 1.9f)` truncated by the assignment
to the `uint32_t` field. -/
def timeSamplesOf (percent : ℚ) : ℕ :=
  (truncQ (48000 * linintf percent (1/1000) (19/10))).toNat

/-- `DELFX_PARAM` from `delay.c` lines 89–108.  `junk` threads the
byte-level `memset` remainder of `setDelayTime`. -/
def DELFX_PARAM (s : DelayState) (index : ℕ) (value : ℤ) (junk : ℚ) : DelayState :=
  let percent := q31_to_f32 value
  if index = k_user_delfx_param_time then
    setDelayTime s (timeSamplesOf percent) junk
  else if index = k_user_delfx_param_depth then
    { s with feedback := percent }
  else if index = k_user_delfx_param_shift_depth then
    { s with wet_mix := percent, dry_mix := 1 - percent }
  else s

/-! ## Saw/triangle morphing oscillator (`first_osc.cpp`, `first_osc.hpp`) -/

/-- `MyOsc::Params` (`first_osc.hpp` lines 61–71). -/
structure MyOscParams where
  saw_tri_mix : ℚ
  detune : ℚ

/-- `MyOsc::k_flag_reset = 1 << 1` (`first_osc.hpp` line 55). -/
def k_flag_reset : ℕ := 2

/-- The single-voice oscillator state used by `OSC_CYCLE` in `first_osc.cpp`
(which accesses `s.phi` and `s.w` as scalars): phase, frequency increment,
and the pending-event flag bitfield. -/
structure MyOscState where
  phi : ℚ
  w : ℚ
  flags : ℕ

/-- `OSC_NOTEON` from `first_osc.cpp` lines 66–69:
`s_osc.state.flags |= MyOsc::k_flag_reset;` — it writes no output buffer and
touches no other field. -/
def OSC_NOTEON (s : MyOscState) : MyOscState :=
  { s with flags := s.flags ||| k_flag_reset }

/-- One sample of the `OSC_CYCLE` loop body (`first_osc.cpp` lines 51–54):
`wavemix = clipminmaxf(0.005f, p.saw_tri_mix, 0.995f)`,
`sig = (1 − wavemix)·osc_sawf(phi) + wavemix·osc_trif(phi)`. -/
def oscSampleOf (p : MyOscParams) (phi : ℚ) : ℚ :=
  let wavemix := clipminmaxf (5/1000) p.saw_tri_mix (995/1000)
  (1 - wavemix) * osc_sawf phi + wavemix * osc_trif phi

/-- The per-sample loop of `OSC_CYCLE` (`first_osc.cpp` lines 49–61):
emits one sample per frame and advances the phase; returns the final phase
and the emitted samples. -/
def cycleLoop (p : MyOscParams) (w : ℚ) : ℚ → ℕ → ℚ × List ℚ
  | phi, 0 => (phi, [])
  | phi, n + 1 =>
    let sig := oscSampleOf p phi
    let tl := cycleLoop p w (advance phi w) n
    (tl.1, sig :: tl.2)

/-- `OSC_CYCLE` from `first_osc.cpp` lines 21–64: the flag field is read and
cleared to `k_flags_none` at block start; the pitch is updated from the
host-supplied per-block frequency `w0`; the phase is zeroed (once, before the
sample loop) exactly when the saved flags contain `k_flag_reset`; then the
per-sample loop runs for `frames` samples. -/
def OSC_CYCLE (p : MyOscParams) (s : MyOscState) (w0 : ℚ) (frames : ℕ) :
    MyOscState × List ℚ :=
  let flags := s.flags
  let phi0 := if flags &&& k_flag_reset ≠ 0 then 0 else s.phi
  let tl := cycleLoop p w0 phi0 frames
  ({ phi := tl.1, w := w0, flags := 0 }, tl.2)

/-- The accumulation loop of `MyOsc<N>::updatePitch` (`first_osc.hpp` lines
120–123): starting from `detune_i = −max_detune/2` and stepping by
`detune_delta`, each voice gets increment `w · pow2(detune_i)`.  `pow2`
stands for the host approximation `fasterpow2f`. -/
def updatePitchLoop (pow2 : ℚ → ℚ) (w delta : ℚ) : ℚ → ℕ → List ℚ
  | _, 0 => []
  | di, n + 1 => w * pow2 di :: updatePitchLoop pow2 w delta (di + delta) n

/-- `MyOsc<N>::updatePitch` (`first_osc.hpp` lines 109–124) producing the
per-voice increments for `NV` voices.  The host exponential `fasterpow2f` is
not under `src/`; it is passed as the parameter `pow2`, modelled from the
spec as the function `x ↦ 2^x` (theorems hypothesize its value at the points
where it is evaluated). -/
def updatePitch (pow2 : ℚ → ℚ) (NV : ℕ) (detune w : ℚ) : List ℚ :=
  if NV = 1 then [w]
  else
    let detune_spread := clipminmaxf 0 detune 1
    let max_detune := linintf detune_spread 0 8
    let detune_delta := max_detune / ((NV : ℚ) - 1)
    updatePitchLoop pow2 w detune_delta (-max_detune / 2) NV

/-- Multi-voice oscillator state of `MyOsc<N>` (`first_osc.hpp` lines
76–94), with the per-voice `phi[N]` / `w[N]` arrays embedded as lists. -/
structure MyOscStateN where
  phi : List ℚ
  w : List ℚ
  flags : ℕ

/-- The voice loop of `MyOsc<N>::nextSample` (`first_osc.hpp` lines
136–143): accumulates `(1 − wavemix)·osc_sawf(phi[i]) + wavemix·osc_trif(phi[i])`
over the voices and advances each voice's phase by its own increment. -/
def nextSampleAux (wavemix : ℚ) : List ℚ → List ℚ → ℚ × List ℚ
  | [], _ => (0, [])
  | _ :: _, [] => (0, [])
  | phi :: phis, w :: ws =>
    let s1 := (1 - wavemix) * osc_sawf phi + wavemix * osc_trif phi
    let tl := nextSampleAux wavemix phis ws
    (s1 + tl.1, advance phi w :: tl.2)

/-- `MyOsc<N>::nextSample` (`first_osc.hpp` lines 131–148): clamps the
saw/tri mix to `[0.005, 0.995]`, accumulates the voice samples, advances the
phases, and scales by `kFactor = 1/N`. -/
def nextSample (p : MyOscParams) (s : MyOscStateN) : MyOscStateN × ℚ :=
  let wavemix := clipminmaxf (5/1000) p.saw_tri_mix (995/1000)
  let r := nextSampleAux wavemix s.phi s.w
  ({ s with phi := r.2 }, r.1 * (1 / (s.phi.length : ℚ)))

/-! ## Square oscillator (`square.cpp`) -/

/-- `State` of the square oscillator (`square.cpp` lines 11–27). -/
structure SquareState where
  w0 : ℚ
  phase : ℚ
  duty : ℚ
  angle : ℚ
  lfo : ℚ
  lfoz : ℚ
  flags : ℕ

/-- One sample of the `OSC_CYCLE` loop of `square.cpp` (lines 82–86):
`pwm = clipminmaxf(0.1f, duty + lfoz, 0.9f)`,
`sig = (phase − pwm ≤ 0) ? 1 : −1`, then `sig *= 1 − angle·phase`. -/
def squareSig (duty lfoz angle phase : ℚ) : ℚ :=
  let pwm := clipminmaxf (1/10) (duty + lfoz) (9/10)
  let sig : ℚ := if phase - pwm ≤ 0 then 1 else -1
  sig * (1 - angle * phase)

/-- `k_user_osc_param_shape` (host header id). -/
def k_user_osc_param_shape : ℕ := 6

/-- `k_user_osc_param_shiftshape` (host header id). -/
def k_user_osc_param_shiftshape : ℕ := 7

/-- `OSC_PARAM` of `square.cpp` lines 111–132: the shape knob sets
`duty = 0.1 + valf·0.8` and the shift-shape knob sets `angle = 0.8·valf`,
with `valf = param_val_to_f32(value)`. -/
def square_OSC_PARAM (s : SquareState) (index : ℕ) (value : ℕ) : SquareState :=
  let valf := param_val_to_f32 value
  if index = k_user_osc_param_shape then { s with duty := 1/10 + valf * (8/10) }
  else if index = k_user_osc_param_shiftshape then { s with angle := (8/10) * valf }
  else s

/-- `k_flag_reset = 1 << 0` of `square.cpp` line 32. -/
def square_k_flag_reset : ℕ := 1

/-- `OSC_NOTEON` from `square.cpp` lines 100–104:
`s_state.flags |= k_flag_reset;` — writes no output and touches no other
field. -/
def square_OSC_NOTEON (s : SquareState) : SquareState :=
  { s with flags := s.flags ||| square_k_flag_reset }

/-- The per-sample `while` loop of `square.cpp` lines 81–94: emit
`squareSig`, advance the phase, step the interpolated LFO value; returns the
final `(phase, lfoz)` pair and the emitted samples. -/
def squareLoop (duty angle lfo_inc w0 : ℚ) : ℚ → ℚ → ℕ → (ℚ × ℚ) × List ℚ
  | phase, lfoz, 0 => ((phase, lfoz), [])
  | phase, lfoz, n + 1 =>
    let sig := squareSig duty lfoz angle phase
    let tl := squareLoop duty angle lfo_inc w0 (advance phase w0) (lfoz + lfo_inc) n
    (tl.1, sig :: tl.2)

/-- `OSC_CYCLE` from `square.cpp` lines 52–98: flags are read and cleared at
block start; phase and the LFO interpolation state are reset exactly when the
saved flags contain the reset bit; then the sample loop runs.  `w0` and
`lfo` stand for the host-computed `osc_w0f_for_note(...)` and
`q31_to_f32(params->shape_lfo)` values for the block. -/
def square_OSC_CYCLE (s : SquareState) (w0 lfo : ℚ) (frames : ℕ) :
    SquareState × List ℚ :=
  let flags := s.flags
  let phase := if flags &&& square_k_flag_reset ≠ 0 then 0 else s.phase
  let lfoz := if flags &&& square_k_flag_reset ≠ 0 then lfo else s.lfoz
  let lfo_inc := (lfo - lfoz) / (frames : ℚ)
  let tl := squareLoop s.duty s.angle lfo_inc w0 phase lfoz frames
  ({ s with w0 := w0, phase := tl.1.1, lfo := lfo, lfoz := tl.1.2, flags := 0 },
    tl.2)

/-- The spec's detune-offset formula for voice `i` of `NV`: equally spaced
octave offsets spanning `[−D/2, +D/2]` with step `D/(NV−1)`, where the width
is `D = 8·clamp01(spread)` (written from the spec's words, for comparison
with `updatePitch`). -/
def detuneOffset (NV : ℕ) (d : ℚ) (i : ℕ) : ℚ :=
  -(8 * clipminmaxf 0 d 1) / 2 + i * (8 * clipminmaxf 0 d 1 / ((NV : ℚ) - 1))

/-- A concrete stand-in for `fasterpow2f` that agrees with `2^x` at the
integer offsets `−4, 0, 4` evaluated in the witness instances. -/
def pow2At : ℚ → ℚ := fun x => if x = -4 then 1/16 else if x = 4 then 16 else 1

/-! ## Helper lemmas -/

theorem truncQ_of_nonneg (q : ℚ) (h : 0 ≤ q) : truncQ q = ⌊q⌋ := if_pos h

theorem advance_eq_fract (phi w : ℚ) (h : 0 ≤ phi + w) :
    advance phi w = Int.fract (phi + w) := by
  unfold advance
  rw [truncQ_of_nonneg _ h, Int.fract]

theorem advance_mem_Ico (phi w : ℚ) (h : 0 ≤ phi + w) :
    0 ≤ advance phi w ∧ advance phi w < 1 := by
  rw [advance_eq_fract phi w h]
  exact ⟨Int.fract_nonneg _, Int.fract_lt_one _⟩

theorem advanceIter_mem_Ico (phi w : ℚ) (h0 : 0 ≤ phi) (h1 : phi < 1) (hw : 0 ≤ w) :
    ∀ n : ℕ, 0 ≤ advanceIter w phi n ∧ advanceIter w phi n < 1 := by
  intro n
  induction n with
  | zero => exact ⟨h0, h1⟩
  | succ n ih =>
    have := advance_mem_Ico (advanceIter w phi n) w (by linarith [ih.1])
    simpa [advanceIter] using this

theorem lor_land_self (x k : ℕ) : (x ||| k) &&& k = k := by
  apply Nat.eq_of_testBit_eq
  intro i
  rw [Nat.testBit_and, Nat.testBit_or]
  cases h : Nat.testBit k i <;> simp [h]

theorem updatePitchLoop_eq (pow2 : ℚ → ℚ) (w delta start : ℚ) (n : ℕ) :
    updatePitchLoop pow2 w delta start n
      = (List.range n).map (fun i : ℕ => w * pow2 (start + (i : ℚ) * delta)) := by
  induction n generalizing start with
  | zero => simp [updatePitchLoop]
  | succ n ih =>
    rw [List.range_succ_eq_map, List.map_cons, List.map_map]
    show w * pow2 start :: updatePitchLoop pow2 w delta (start + delta) n = _
    rw [ih]
    congr 1
    · norm_num
    · apply List.map_congr_left
      intro i _
      simp only [Function.comp_apply]
      congr 1
      push_cast
      ring

theorem nextSampleAux_eq (m : ℚ) (phis ws : List ℚ) :
    (nextSampleAux m phis ws).1
        = ((List.zip phis ws).map (fun pr =>
            (1 - m) * osc_sawf pr.1 + m * osc_trif pr.1)).sum
    ∧ (nextSampleAux m phis ws).2
        = (List.zip phis ws).map (fun pr => advance pr.1 pr.2) := by
  induction phis generalizing ws with
  | nil => simp [nextSampleAux]
  | cons p ps ih =>
    cases ws with
    | nil => simp [nextSampleAux]
    | cons w ws =>
      have h := ih ws
      simp [nextSampleAux, h.1, h.2]

/-! ## Claim theorems -/

/-- Claim C7: the phase accumulator's advance satisfies
`newPhase = (phase + increment) − ⌊phase + increment⌋`; for every starting
phase in `[0,1)` and every increment `≥ 0`, any number of repeated advances
keeps the phase in `[0,1)`; and `advance 0.9 0.3 = 0.2` (exactly, hence
within `1e-6`). -/
theorem C7_phase_advance (phi w : ℚ) (n : ℕ)
    (h0 : 0 ≤ phi) (h1 : phi < 1) (hw : 0 ≤ w) :
    advance phi w = (phi + w) - ⌊phi + w⌋
    ∧ (0 ≤ advanceIter w phi n ∧ advanceIter w phi n < 1)
    ∧ advance (9/10) (3/10) = 2/10 := by
  refine ⟨?_, advanceIter_mem_Ico phi w h0 h1 hw n, ?_⟩
  · rw [advance, truncQ_of_nonneg _ (by linarith)]
  · rw [advance, truncQ_of_nonneg _ (by norm_num)]
    norm_num

/-- Witness for C7 at `phi = 9/10`, `w = 3/10`, `n = 5`. -/
theorem C7_phase_advance_witness :
    (0 ≤ (9:ℚ)/10) ∧ ((9:ℚ)/10 < 1) ∧ (0 ≤ (3:ℚ)/10) ∧
    (advance (9/10) (3/10) = ((9:ℚ)/10 + 3/10) - ⌊(9:ℚ)/10 + 3/10⌋
      ∧ (0 ≤ advanceIter (3/10) (9/10) 5 ∧ advanceIter (3/10) (9/10) 5 < 1)
      ∧ advance (9/10) (3/10) = 2/10) :=
  ⟨by norm_num, by norm_num, by norm_num,
    C7_phase_advance (9/10) (3/10) 5 (by norm_num) (by norm_num) (by norm_num)⟩

/-- Claim C8: for every phase in `[0,1)` the triangle generator `osc_trif`
is piecewise-linear — strictly rising on `[0, 0.25)` and on `[0.75, 1)`,
strictly falling on `[0.25, 0.75)` — its value lies in `[−1, 1]`, the peaks
`1` and `−1` are attained (at `0.25` and `0.75`), and the adjacent linear
pieces agree at the `0.25` and `0.75` boundaries (no jump). -/
theorem C8_triangle (x y : ℚ) (hx0 : 0 ≤ x) (hx1 : x < 1) :
    (-1 ≤ osc_trif x ∧ osc_trif x ≤ 1)
    ∧ (x < y → y < 1/4 → osc_trif x < osc_trif y)
    ∧ (1/4 ≤ x → x < y → y < 3/4 → osc_trif y < osc_trif x)
    ∧ (3/4 ≤ x → x < y → y < 1 → osc_trif x < osc_trif y)
    ∧ osc_trif (1/4) = 1 ∧ osc_trif (3/4) = -1
    ∧ (1/4 : ℚ) * 4 = osc_trif (1/4)
    ∧ ((1/2 : ℚ) - 3/4) * 4 = osc_trif (3/4) := by
  refine ⟨?_, ?_, ?_, ?_, by norm_num [osc_trif], by norm_num [osc_trif],
    by norm_num [osc_trif], by norm_num [osc_trif]⟩
  · unfold osc_trif
    split_ifs <;> constructor <;> linarith
  · intro hxy hy
    rw [osc_trif, osc_trif, if_pos (show x < 1/4 by linarith),
      if_pos (show y < 1/4 by linarith)]
    linarith
  · intro hx hxy hy
    rw [osc_trif, osc_trif, if_neg (show ¬ x < 1/4 by linarith),
      if_pos (show x < 3/4 by linarith), if_neg (show ¬ y < 1/4 by linarith),
      if_pos (show y < 3/4 by linarith)]
    linarith
  · intro hx hxy hy
    rw [osc_trif, osc_trif, if_neg (show ¬ x < 1/4 by linarith),
      if_neg (show ¬ x < 3/4 by linarith), if_neg (show ¬ y < 1/4 by linarith),
      if_neg (show ¬ y < 3/4 by linarith)]
    linarith

/-- Witness for C8 at `x = 1/10`, `y = 2/10`. -/
theorem C8_triangle_witness :
    (0 ≤ (1:ℚ)/10) ∧ ((1:ℚ)/10 < 1) ∧
    ((-1 ≤ osc_trif (1/10) ∧ osc_trif (1/10) ≤ 1)
    ∧ ((1:ℚ)/10 < 2/10 → (2:ℚ)/10 < 1/4 → osc_trif (1/10) < osc_trif (2/10))
    ∧ ((1:ℚ)/4 ≤ 1/10 → (1:ℚ)/10 < 2/10 → (2:ℚ)/10 < 3/4 →
        osc_trif (2/10) < osc_trif (1/10))
    ∧ ((3:ℚ)/4 ≤ 1/10 → (1:ℚ)/10 < 2/10 → (2:ℚ)/10 < 1 →
        osc_trif (1/10) < osc_trif (2/10))
    ∧ osc_trif (1/4) = 1 ∧ osc_trif (3/4) = -1
    ∧ (1/4 : ℚ) * 4 = osc_trif (1/4)
    ∧ ((1/2 : ℚ) - 3/4) * 4 = osc_trif (3/4)) :=
  ⟨by norm_num, by norm_num, C8_triangle (1/10) (2/10) (by norm_num) (by norm_num)⟩

/-- Claim C1 (code bug, evaluated at the failing input): with the delay line
at full capacity 96000 and the whole buffer holding the nonzero value 1,
the delay-time update to `newLength = 50000` sets `time_samples` and
re-wraps the index, but leaves the sample at index 61500 — inside the region
`[50000, 96000)` that the spec requires to be zeroed — at its stale value 1:
the `memset` count of `delay.c` line 96 is in bytes (the `* sizeof(float)`
factor is missing, compare `init` at line 35), so only
`(96000 − 50000)/4 = 11500` samples (indices 50000–61499) are cleared. -/
theorem C1_stale_region_not_zeroed :
    (setDelayTime ⟨fun _ => 1, 96000, 0, 1/2, 1/2, 1/5, 96000⟩ 50000 0).time_samples
        = 50000
    ∧ (setDelayTime ⟨fun _ => 1, 96000, 0, 1/2, 1/2, 1/5, 96000⟩ 50000 0).index = 0
    ∧ (setDelayTime ⟨fun _ => 1, 96000, 0, 1/2, 1/2, 1/5, 96000⟩ 50000 0).buffer 61499
        = 0
    ∧ (setDelayTime ⟨fun _ => 1, 96000, 0, 1/2, 1/2, 1/5, 96000⟩ 50000 0).buffer 61500
        = 1 := by
  refine ⟨rfl, rfl, ?_, ?_⟩ <;> norm_num [setDelayTime]

/-- Claim C2: per processed frame of the delay core, the mono output equals
`dryMix·input + wetMix·buffer[writeIndex]` computed from the pre-write buffer
value, both stereo output channels receive that same value, the buffer cell
at `writeIndex` is then overwritten with `feedbackGain·(buffer[writeIndex] +
input)` (all other cells unchanged), the write index then becomes
`(writeIndex + 1) mod activeLength`, and `process` applies this step frame
by frame. -/
theorem C2_delay_per_sample (s : DelayState) (l r : ℚ) (rest : List (ℚ × ℚ)) (j : ℕ) :
    (processFrame s l r).2.1 = s.dry_mix * l + s.wet_mix * s.buffer s.index
    ∧ (processFrame s l r).2.2 = (processFrame s l r).2.1
    ∧ (processFrame s l r).1.buffer j =
        (if j = s.index then s.feedback * (s.buffer s.index + l) else s.buffer j)
    ∧ (processFrame s l r).1.index = (s.index + 1) % s.time_samples
    ∧ (processFrame s l r).1.wet_mix = s.wet_mix
    ∧ (processFrame s l r).1.dry_mix = s.dry_mix
    ∧ (processFrame s l r).1.feedback = s.feedback
    ∧ (processFrame s l r).1.time_samples = s.time_samples
    ∧ process s ((l, r) :: rest) =
        ((process (processFrame s l r).1 rest).1,
          (processFrame s l r).2 :: (process (processFrame s l r).1 rest).2) := by
  refine ⟨by simp [processFrame]; ring, rfl, ?_, rfl, rfl, rfl, rfl, rfl, rfl⟩
  simp [processFrame, Function.update_apply]

/-- Claim C3 counterexample: the depth setter of `DELFX_PARAM` stores
`q31_to_f32(value)` with no clamp, so the reachable raw value `−2³¹`
(a valid `int32_t`) stores `feedbackGain = −1`, which is not in the claimed
clamped range `[0, 1)`. -/
theorem C3_negative_feedback_reachable :
    (DELFX_PARAM delayInit k_user_delfx_param_depth (-(2^31)) 0).feedback = -1
    ∧ (DELFX_PARAM delayInit k_user_delfx_param_depth (-(2^31)) 0).feedback < 0 := by
  norm_num [DELFX_PARAM, q31_to_f32, k_user_delfx_param_depth,
    k_user_delfx_param_time, delayInit]

/-- Claim C3 (amended): the depth setter performs no clamping; what holds by
construction is that for every `int32_t` raw value the stored `feedbackGain`
is `< 1` (the Q31 scaling cannot reach 1), and whenever the raw value is
nonnegative — as host-delivered knob values are — the stored `feedbackGain`
lies in `[0, 1)`. -/
theorem C3_feedback_lt_one (s : DelayState) (v : ℤ) (j : ℚ)
    (hlo : -(2^31) ≤ v) (hhi : v < 2^31) :
    (DELFX_PARAM s k_user_delfx_param_depth v j).feedback < 1
    ∧ (0 ≤ v → 0 ≤ (DELFX_PARAM s k_user_delfx_param_depth v j).feedback) := by
  have hfb : (DELFX_PARAM s k_user_delfx_param_depth v j).feedback = (v : ℚ) / 2 ^ 31 := by
    simp [DELFX_PARAM, q31_to_f32, k_user_delfx_param_depth, k_user_delfx_param_time]
  constructor
  · rw [hfb, div_lt_one (by positivity)]
    exact_mod_cast hhi
  · intro hv
    rw [hfb]
    apply div_nonneg _ (by positivity)
    exact_mod_cast hv

/-- Witness for C3 (amended) at `v = 2³⁰`. -/
theorem C3_feedback_lt_one_witness :
    (-(2^31) ≤ (2^30 : ℤ)) ∧ ((2^30 : ℤ) < 2^31) ∧
    ((DELFX_PARAM delayInit k_user_delfx_param_depth (2^30) 0).feedback < 1
      ∧ (0 ≤ (2^30 : ℤ) →
          0 ≤ (DELFX_PARAM delayInit k_user_delfx_param_depth (2^30) 0).feedback)) :=
  ⟨by norm_num, by norm_num,
    C3_feedback_lt_one delayInit (2^30) 0 (by norm_num) (by norm_num)⟩

/-- Claim C4 counterexample: the depth setter does not store the clamped
incoming value — at raw value `−2³⁰` it stores `feedbackGain = −1/2`,
whereas the value clamped into the claimed range `[0, 1)` would be
nonnegative. -/
theorem C4_stored_value_not_clamped :
    (DELFX_PARAM delayInit k_user_delfx_param_depth (-(2^30)) 0).feedback = -(1/2)
    ∧ ¬ (0 ≤ (DELFX_PARAM delayInit k_user_delfx_param_depth (-(2^30)) 0).feedback) := by
  norm_num [DELFX_PARAM, q31_to_f32, k_user_delfx_param_depth,
    k_user_delfx_param_time, delayInit]

/-- Claim C4 (amended): `setFeedback` (depth) and `setMix` (shift-depth) are
pure setters that store the scaled — not clamped — incoming value
`q31_to_f32(value)` and change no other state; after every `setMix` call and
after initialization `dryMix = 1 − wetMix`; and calling `setFeedback` twice
with the same raw value leaves the state identical to calling it once. -/
theorem C4_setters_pure (s : DelayState) (v : ℤ) (j j2 : ℚ) :
    ((DELFX_PARAM s k_user_delfx_param_depth v j).feedback = q31_to_f32 v
     ∧ (DELFX_PARAM s k_user_delfx_param_depth v j).wet_mix = s.wet_mix
     ∧ (DELFX_PARAM s k_user_delfx_param_depth v j).dry_mix = s.dry_mix
     ∧ (DELFX_PARAM s k_user_delfx_param_depth v j).index = s.index
     ∧ (DELFX_PARAM s k_user_delfx_param_depth v j).time_samples = s.time_samples
     ∧ (DELFX_PARAM s k_user_delfx_param_depth v j).buffer = s.buffer
     ∧ (DELFX_PARAM s k_user_delfx_param_depth v j).buffer_len = s.buffer_len)
    ∧ ((DELFX_PARAM s k_user_delfx_param_shift_depth v j).wet_mix = q31_to_f32 v
     ∧ (DELFX_PARAM s k_user_delfx_param_shift_depth v j).dry_mix = 1 - q31_to_f32 v
     ∧ (DELFX_PARAM s k_user_delfx_param_shift_depth v j).feedback = s.feedback
     ∧ (DELFX_PARAM s k_user_delfx_param_shift_depth v j).index = s.index
     ∧ (DELFX_PARAM s k_user_delfx_param_shift_depth v j).time_samples = s.time_samples
     ∧ (DELFX_PARAM s k_user_delfx_param_shift_depth v j).buffer = s.buffer
     ∧ (DELFX_PARAM s k_user_delfx_param_shift_depth v j).buffer_len = s.buffer_len)
    ∧ (DELFX_PARAM s k_user_delfx_param_shift_depth v j).dry_mix
        = 1 - (DELFX_PARAM s k_user_delfx_param_shift_depth v j).wet_mix
    ∧ delayInit.dry_mix = 1 - delayInit.wet_mix
    ∧ DELFX_PARAM (DELFX_PARAM s k_user_delfx_param_depth v j)
        k_user_delfx_param_depth v j2
      = DELFX_PARAM s k_user_delfx_param_depth v j := by
  refine ⟨⟨?_, ?_, ?_, ?_, ?_, ?_, ?_⟩, ⟨?_, ?_, ?_, ?_, ?_, ?_, ?_⟩, ?_,
      by norm_num [delayInit], ?_⟩ <;>
    simp [DELFX_PARAM, delayInit, k_user_delfx_param_depth, k_user_delfx_param_time,
      k_user_delfx_param_shift_depth]

/-- Claim C5: pending-event flags are read and cleared exactly once at the
start of each block-processing call; a reset/note-on flag raised between
blocks zeroes the phase exactly once, at the start of the next processed
block, and the note-on entry point itself emits no samples and touches no
state other than the flag field (so samples already emitted are unaffected);
a block entered without the reset bit keeps its phase.  Stated for the
morphing oscillator (`first_osc.cpp`) and the square oscillator
(`square.cpp`), whose `OSC_CYCLE`s share the flag protocol. -/
theorem C5_flag_protocol (p : MyOscParams) (s t : MyOscState) (q u : SquareState)
    (w0 w1 lfo : ℚ) (n m : ℕ)
    (ht : t.flags &&& k_flag_reset = 0)
    (hu : u.flags &&& square_k_flag_reset = 0) :
    ((OSC_NOTEON s).phi = s.phi ∧ (OSC_NOTEON s).w = s.w
      ∧ (OSC_NOTEON s).flags = s.flags ||| k_flag_reset)
    ∧ (OSC_CYCLE p s w0 n).1.flags = 0
    ∧ (OSC_CYCLE p (OSC_NOTEON s) w0 n).2 = (cycleLoop p w0 0 n).2
    ∧ (OSC_CYCLE p (OSC_NOTEON s) w0 n).1.phi = (cycleLoop p w0 0 n).1
    ∧ (OSC_CYCLE p t w1 m).2 = (cycleLoop p w1 t.phi m).2
    ∧ (OSC_CYCLE p ((OSC_CYCLE p (OSC_NOTEON s) w0 n).1) w1 m).2
        = (cycleLoop p w1 (OSC_CYCLE p (OSC_NOTEON s) w0 n).1.phi m).2
    ∧ ((square_OSC_NOTEON q).phase = q.phase ∧ (square_OSC_NOTEON q).duty = q.duty
      ∧ (square_OSC_NOTEON q).angle = q.angle ∧ (square_OSC_NOTEON q).lfoz = q.lfoz
      ∧ (square_OSC_NOTEON q).flags = q.flags ||| square_k_flag_reset)
    ∧ (square_OSC_CYCLE q w0 lfo n).1.flags = 0
    ∧ (square_OSC_CYCLE (square_OSC_NOTEON q) w0 lfo n).2
        = (squareLoop q.duty q.angle ((lfo - lfo) / (n : ℚ)) w0 0 lfo n).2
    ∧ (square_OSC_CYCLE u w0 lfo m).2
        = (squareLoop u.duty u.angle ((lfo - u.lfoz) / (m : ℚ)) w0 u.phase u.lfoz m).2 := by
  have hs : (s.flags ||| 2) &&& 2 = 2 := lor_land_self s.flags 2
  have hqf : (q.flags ||| 1) &&& 1 = 1 := lor_land_self q.flags 1
  refine ⟨⟨rfl, rfl, rfl⟩, rfl, ?_, ?_, ?_, ?_, ⟨rfl, rfl, rfl, rfl, rfl⟩, rfl, ?_, ?_⟩
  · simp [OSC_CYCLE, OSC_NOTEON, hs, k_flag_reset]
  · simp [OSC_CYCLE, OSC_NOTEON, hs, k_flag_reset]
  · simp [OSC_CYCLE, k_flag_reset] at ht ⊢
    simp [ht]
  · simp [OSC_CYCLE]
  · simp [square_OSC_CYCLE, square_OSC_NOTEON, hqf, square_k_flag_reset]
  · simp [square_OSC_CYCLE, square_k_flag_reset] at hu ⊢
    simp [hu]

/-- Witness for C5 at concrete states (reset bit clear in `t` and `u`). -/
theorem C5_flag_protocol_witness :
    ((⟨1/3, 1/10, 0⟩ : MyOscState).flags &&& k_flag_reset = 0)
    ∧ ((⟨0, 1/3, 1/2, 1/5, 0, 0, 0⟩ : SquareState).flags &&& square_k_flag_reset = 0)
    ∧ (((OSC_NOTEON ⟨1/2, 1/10, 0⟩).phi = (⟨1/2, 1/10, 0⟩ : MyOscState).phi
      ∧ (OSC_NOTEON ⟨1/2, 1/10, 0⟩).w = (⟨1/2, 1/10, 0⟩ : MyOscState).w
      ∧ (OSC_NOTEON ⟨1/2, 1/10, 0⟩).flags
          = (⟨1/2, 1/10, 0⟩ : MyOscState).flags ||| k_flag_reset)
    ∧ (OSC_CYCLE ⟨0, 0⟩ ⟨1/2, 1/10, 0⟩ (1/10) 2).1.flags = 0
    ∧ (OSC_CYCLE ⟨0, 0⟩ (OSC_NOTEON ⟨1/2, 1/10, 0⟩) (1/10) 2).2
        = (cycleLoop ⟨0, 0⟩ (1/10) 0 2).2
    ∧ (OSC_CYCLE ⟨0, 0⟩ (OSC_NOTEON ⟨1/2, 1/10, 0⟩) (1/10) 2).1.phi
        = (cycleLoop ⟨0, 0⟩ (1/10) 0 2).1
    ∧ (OSC_CYCLE ⟨0, 0⟩ ⟨1/3, 1/10, 0⟩ (1/5) 1).2
        = (cycleLoop ⟨0, 0⟩ (1/5) (⟨1/3, 1/10, 0⟩ : MyOscState).phi 1).2
    ∧ (OSC_CYCLE ⟨0, 0⟩ ((OSC_CYCLE ⟨0, 0⟩ (OSC_NOTEON ⟨1/2, 1/10, 0⟩) (1/10) 2).1)
          (1/5) 1).2
        = (cycleLoop ⟨0, 0⟩ (1/5)
            (OSC_CYCLE ⟨0, 0⟩ (OSC_NOTEON ⟨1/2, 1/10, 0⟩) (1/10) 2).1.phi 1).2
    ∧ ((square_OSC_NOTEON ⟨0, 1/4, 1/2, 1/5, 0, 0, 0⟩).phase
          = (⟨0, 1/4, 1/2, 1/5, 0, 0, 0⟩ : SquareState).phase
      ∧ (square_OSC_NOTEON ⟨0, 1/4, 1/2, 1/5, 0, 0, 0⟩).duty
          = (⟨0, 1/4, 1/2, 1/5, 0, 0, 0⟩ : SquareState).duty
      ∧ (square_OSC_NOTEON ⟨0, 1/4, 1/2, 1/5, 0, 0, 0⟩).angle
          = (⟨0, 1/4, 1/2, 1/5, 0, 0, 0⟩ : SquareState).angle
      ∧ (square_OSC_NOTEON ⟨0, 1/4, 1/2, 1/5, 0, 0, 0⟩).lfoz
          = (⟨0, 1/4, 1/2, 1/5, 0, 0, 0⟩ : SquareState).lfoz
      ∧ (square_OSC_NOTEON ⟨0, 1/4, 1/2, 1/5, 0, 0, 0⟩).flags
          = (⟨0, 1/4, 1/2, 1/5, 0, 0, 0⟩ : SquareState).flags ||| square_k_flag_reset)
    ∧ (square_OSC_CYCLE ⟨0, 1/4, 1/2, 1/5, 0, 0, 0⟩ (1/10) (1/100) 2).1.flags = 0
    ∧ (square_OSC_CYCLE (square_OSC_NOTEON ⟨0, 1/4, 1/2, 1/5, 0, 0, 0⟩) (1/10) (1/100) 2).2
        = (squareLoop (⟨0, 1/4, 1/2, 1/5, 0, 0, 0⟩ : SquareState).duty
            (⟨0, 1/4, 1/2, 1/5, 0, 0, 0⟩ : SquareState).angle
            (((1:ℚ)/100 - 1/100) / ((2 : ℕ) : ℚ)) (1/10) 0 (1/100) 2).2
    ∧ (square_OSC_CYCLE ⟨0, 1/3, 1/2, 1/5, 0, 0, 0⟩ (1/10) (1/100) 1).2
        = (squareLoop (⟨0, 1/3, 1/2, 1/5, 0, 0, 0⟩ : SquareState).duty
            (⟨0, 1/3, 1/2, 1/5, 0, 0, 0⟩ : SquareState).angle
            (((1:ℚ)/100 - (⟨0, 1/3, 1/2, 1/5, 0, 0, 0⟩ : SquareState).lfoz) / ((1 : ℕ) : ℚ))
            (1/10) (⟨0, 1/3, 1/2, 1/5, 0, 0, 0⟩ : SquareState).phase
            (⟨0, 1/3, 1/2, 1/5, 0, 0, 0⟩ : SquareState).lfoz 1).2) :=
  ⟨by decide, by decide,
    C5_flag_protocol ⟨0, 0⟩ ⟨1/2, 1/10, 0⟩ ⟨1/3, 1/10, 0⟩ ⟨0, 1/4, 1/2, 1/5, 0, 0, 0⟩
      ⟨0, 1/3, 1/2, 1/5, 0, 0, 0⟩ (1/10) (1/5) (1/100) 2 1 (by decide) (by decide)⟩

/-- Claim C6: the multi-voice detune spreader: for `NV = 1` the result is
exactly `[w]` regardless of the spread; for `NV ≥ 2` voice `i` receives
increment `w · pow2(offset_i)` where the offsets are equally spaced with
step `D/(NV−1)` spanning `[−D/2, D/2]` for width `D = 8·clamp01(spread)`,
are symmetric (`offset_i + offset_{NV−1−i} = 0`) and have mean 0; and with
`NV = 3, w = 440, spread = 1` (so `D = 8` octaves) the increments are
`{440·2⁻⁴, 440, 440·2⁺⁴} = {27.5, 440, 7040}` (with `pow2` agreeing with
`2^x` at the evaluated integer offsets). -/
theorem C6_detune_spreader (pow2 : ℚ → ℚ) (NV : ℕ) (d w : ℚ)
    (hN : 2 ≤ NV) (hm4 : pow2 (-4) = 1/16) (hz : pow2 0 = 1) (h4 : pow2 4 = 16) :
    (updatePitch pow2 1 d w = [w])
    ∧ (updatePitch pow2 NV d w
        = (List.range NV).map (fun i : ℕ => w * pow2 (detuneOffset NV d i)))
    ∧ (∀ i : ℕ, i < NV → detuneOffset NV d i + detuneOffset NV d (NV - 1 - i) = 0)
    ∧ (∑ i ∈ Finset.range NV, detuneOffset NV d i = 0)
    ∧ updatePitch pow2 3 1 440 = [55/2, 440, 7040] := by
  have hne : ((NV : ℚ) - 1) ≠ 0 := by
    have h2 : (2 : ℚ) ≤ (NV : ℚ) := by exact_mod_cast hN
    linarith
  have hsym : ∀ i : ℕ, i < NV →
      detuneOffset NV d i + detuneOffset NV d (NV - 1 - i) = 0 := by
    intro i hi
    have h1 : i ≤ NV - 1 := by omega
    have h2 : 1 ≤ NV := by omega
    have hcast : ((NV - 1 - i : ℕ) : ℚ) = (NV : ℚ) - 1 - (i : ℚ) := by
      push_cast [Nat.cast_sub h1, Nat.cast_sub h2]
      ring
    unfold detuneOffset
    rw [hcast]
    field_simp
    ring
  have hsum : ∑ i ∈ Finset.range NV, detuneOffset NV d i = 0 := by
    have hrefl := Finset.sum_range_reflect (fun i => detuneOffset NV d i) NV
    have h2 : (∑ i ∈ Finset.range NV, detuneOffset NV d i)
        + (∑ i ∈ Finset.range NV, detuneOffset NV d i) = 0 := by
      nth_rewrite 1 [← hrefl]
      rw [← Finset.sum_add_distrib]
      apply Finset.sum_eq_zero
      intro i hi
      rw [add_comm]
      exact hsym i (Finset.mem_range.1 hi)
    linarith
  refine ⟨by simp [updatePitch], ?_, hsym, hsum, ?_⟩
  · simp only [updatePitch]
    rw [if_neg (by omega : ¬ NV = 1)]
    rw [updatePitchLoop_eq]
    apply List.map_congr_left
    intro i _
    congr 1
    unfold detuneOffset linintf
    ring
  · norm_num [updatePitch, updatePitchLoop, clipminmaxf, linintf, hm4, hz, h4]

/-- Witness for C6 at `NV = 3`, `d = 1`, `w = 440` with the concrete
exponential stand-in `pow2At`. -/
theorem C6_detune_spreader_witness :
    (2 ≤ 3) ∧ (pow2At (-4) = 1/16) ∧ (pow2At 0 = 1) ∧ (pow2At 4 = 16)
    ∧ ((updatePitch pow2At 1 1 440 = [440])
      ∧ (updatePitch pow2At 3 1 440
          = (List.range 3).map (fun i : ℕ => 440 * pow2At (detuneOffset 3 1 i)))
      ∧ (∀ i : ℕ, i < 3 → detuneOffset 3 1 i + detuneOffset 3 1 (3 - 1 - i) = 0)
      ∧ (∑ i ∈ Finset.range 3, detuneOffset 3 1 i = 0)
      ∧ updatePitch pow2At 3 1 440 = [55/2, 440, 7040]) :=
  ⟨by norm_num, by norm_num [pow2At], by norm_num [pow2At], by norm_num [pow2At],
    C6_detune_spreader pow2At 3 1 440 (by norm_num) (by norm_num [pow2At])
      (by norm_num [pow2At]) (by norm_num [pow2At])⟩

/-- Claim C9: for every phase in `[0,1)`, the square/pulse generator of
`square.cpp` outputs `+1` when `phase ≤ threshold` and `−1` otherwise, with
`threshold = clamp(duty + pwmOffset, 0.1, 0.9)`, the result multiplied by
`1 − angle·phase`; and for unit-range (10-bit, `≤ 1023`) parameter values
the callback stores `duty ∈ [0.1, 0.9]` and `angle ∈ [0, 0.8]`. -/
theorem C9_square_pulse (phase duty lfoz angle : ℚ) (v : ℕ) (s : SquareState)
    (hp0 : 0 ≤ phase) (hp1 : phase < 1) (hv : v ≤ 1023) :
    squareSig duty lfoz angle phase
      = (if phase ≤ clipminmaxf (1/10) (duty + lfoz) (9/10) then 1 else -1)
          * (1 - angle * phase)
    ∧ (1/10 ≤ (square_OSC_PARAM s k_user_osc_param_shape v).duty
        ∧ (square_OSC_PARAM s k_user_osc_param_shape v).duty ≤ 9/10)
    ∧ (0 ≤ (square_OSC_PARAM s k_user_osc_param_shiftshape v).angle
        ∧ (square_OSC_PARAM s k_user_osc_param_shiftshape v).angle ≤ 8/10) := by
  have hv1 : ((v : ℚ)) ≤ 1023 := by exact_mod_cast hv
  have hv0 : (0 : ℚ) ≤ (v : ℚ) := by positivity
  have hduty : (square_OSC_PARAM s k_user_osc_param_shape v).duty
      = 1/10 + (v : ℚ)/1023 * (8/10) := by
    simp [square_OSC_PARAM, param_val_to_f32, k_user_osc_param_shape]
  have hangle : (square_OSC_PARAM s k_user_osc_param_shiftshape v).angle
      = (8/10) * ((v : ℚ)/1023) := by
    simp [square_OSC_PARAM, param_val_to_f32, k_user_osc_param_shape,
      k_user_osc_param_shiftshape]
  refine ⟨by simp [squareSig, sub_nonpos], ⟨?_, ?_⟩, ⟨?_, ?_⟩⟩
  · rw [hduty]; nlinarith
  · rw [hduty]; nlinarith
  · rw [hangle]; positivity
  · rw [hangle]; nlinarith

/-- Witness for C9 at `phase = 1/2`, `duty = 1/2`, `lfoz = 0`,
`angle = 1/5`, `v = 512`. -/
theorem C9_square_pulse_witness :
    (0 ≤ (1:ℚ)/2) ∧ ((1:ℚ)/2 < 1) ∧ ((512 : ℕ) ≤ 1023)
    ∧ (squareSig (1/2) 0 (1/5) (1/2)
        = (if (1:ℚ)/2 ≤ clipminmaxf (1/10) ((1:ℚ)/2 + 0) (9/10) then 1 else -1)
            * (1 - (1:ℚ)/5 * (1/2))
      ∧ (1/10 ≤ (square_OSC_PARAM ⟨0, 0, 0, 0, 0, 0, 0⟩ k_user_osc_param_shape 512).duty
          ∧ (square_OSC_PARAM ⟨0, 0, 0, 0, 0, 0, 0⟩ k_user_osc_param_shape 512).duty ≤ 9/10)
      ∧ (0 ≤ (square_OSC_PARAM ⟨0, 0, 0, 0, 0, 0, 0⟩ k_user_osc_param_shiftshape 512).angle
          ∧ (square_OSC_PARAM ⟨0, 0, 0, 0, 0, 0, 0⟩ k_user_osc_param_shiftshape 512).angle
              ≤ 8/10)) :=
  ⟨by norm_num, by norm_num, by norm_num,
    C9_square_pulse (1/2) (1/2) 0 (1/5) 512 ⟨0, 0, 0, 0, 0, 0, 0⟩
      (by norm_num) (by norm_num) (by norm_num)⟩

/-- Claim C10: the morphing oscillator's emitted sample is the equal-weight
(`1/N`) mix over the `N` voices of the per-voice sample
`(1 − mix)·saw(phase_i) + mix·triangle(phase_i)`, where `mix` is the raw
saw/tri parameter clamped to `[0.005, 0.995]`, and each voice's phase is
then advanced by its own increment (other state untouched). -/
theorem C10_morph_mix (p : MyOscParams) (s : MyOscStateN) :
    (nextSample p s).2 = (1 / (s.phi.length : ℚ)) *
        ((List.zip s.phi s.w).map (fun pr =>
          (1 - clipminmaxf (5/1000) p.saw_tri_mix (995/1000)) * osc_sawf pr.1
            + clipminmaxf (5/1000) p.saw_tri_mix (995/1000) * osc_trif pr.1)).sum
    ∧ (nextSample p s).1.phi = (List.zip s.phi s.w).map (fun pr => advance pr.1 pr.2)
    ∧ (nextSample p s).1.w = s.w
    ∧ (nextSample p s).1.flags = s.flags := by
  have h := nextSampleAux_eq (clipminmaxf (5/1000) p.saw_tri_mix (995/1000)) s.phi s.w
  refine ⟨?_, ?_, rfl, rfl⟩
  · show (nextSampleAux (clipminmaxf (5/1000) p.saw_tri_mix (995/1000)) s.phi s.w).1
        * (1 / (s.phi.length : ℚ)) = _
    rw [h.1, mul_comm]
  · show (nextSampleAux (clipminmaxf (5/1000) p.saw_tri_mix (995/1000)) s.phi s.w).2 = _
    exact h.2
